import Mathlib

set_option maxHeartbeats 1000000

/-!
Verification development for the plant-data pipeline of an energy dashboard.

The embedded code comes from `src/services/dataService.ts` (safeFloat,
readDataFile's date normalization, processPlantData, getBlankPlantData),
the application file (parseDateString, availableDates, secStats,
handleFileUpload) and the constants module (CONVERSIONS, EMISSION_FACTORS).

JavaScript numbers are modelled as exact rationals together with an explicit
NaN value.  Signed infinities are omitted from the model: no modelled
operation produces one from the pipeline's inputs, because every division in
the code is guarded by a strict-positivity test on its denominator and exact
rationals do not overflow.
-/

/-- Model of a JavaScript number: a finite value (exact rational) or NaN. -/
inductive JSNum where
  | finite (q : ℚ)
  | nan
deriving DecidableEq

namespace JSNum

/-- JS addition; NaN propagates. -/
def add : JSNum → JSNum → JSNum
  | finite a, finite b => finite (a + b)
  | _, _ => nan

/-- JS multiplication; NaN propagates. -/
def mul : JSNum → JSNum → JSNum
  | finite a, finite b => finite (a * b)
  | _, _ => nan

/-- JS division; NaN propagates.  Division by zero is mapped to NaN: in JS it
would give a signed infinity (or NaN for 0/0), a value outside this model,
but every division in the modelled code is guarded by a strict-positivity
test on the denominator, so the zero case is unreachable there. -/
def div : JSNum → JSNum → JSNum
  | finite a, finite b => if b = 0 then nan else finite (a / b)
  | _, _ => nan

/-- JS `<` comparison; any comparison involving NaN is false. -/
def ltb : JSNum → JSNum → Bool
  | finite a, finite b => decide (a < b)
  | _, _ => false

/-- JS `<=` comparison; any comparison involving NaN is false. -/
def leb : JSNum → JSNum → Bool
  | finite a, finite b => decide (a ≤ b)
  | _, _ => false

/-- The rational value of a finite JS number, defaulting to 0 on NaN. -/
def toQ : JSNum → ℚ
  | finite q => q
  | nan => 0

end JSNum

/-- Model of an untyped JavaScript cell value (`any`), as received from the
spreadsheet reader for the numeric columns. -/
inductive JSValue where
  | num (n : JSNum)
  | str (s : String)
  | nullv
  | undef
  | boolv (b : Bool)
deriving DecidableEq

/-- Holds (as `true`) for the space characters skipped by JS numeric parsing. -/
def isWsChar (c : Char) : Bool := c = ' ' || c = '\t' || c = '\n' || c = '\r'

/-- Holds (as `true`) for an ASCII decimal digit. -/
def isDigitChar (c : Char) : Bool := '0' ≤ c && c ≤ '9'

/-- Numeric value of an ASCII digit character. -/
def digitVal (c : Char) : ℕ := c.toNat - 48

/-- Value of a list of ASCII digits read in base 10. -/
def digitsVal (l : List Char) : ℕ := l.foldl (fun acc c => 10 * acc + digitVal c) 0

/-- Reads an optional leading sign, as JS numeric parsing does. -/
def readSign : List Char → ℤ × List Char
  | [] => (1, [])
  | a :: t => if a = '+' then (1, t) else if a = '-' then (-1, t) else (1, a :: t)

/-- Model of JS `parseFloat` on a string (as a character list): skip leading
whitespace, optional sign, integer digits, optional fraction, optional
exponent; `none` models NaN (no digits at all).  The special literal
`Infinity`, which JS also accepts, lies outside this model's number domain
and is treated as unparseable. -/
def parseFloatJS (l : List Char) : Option ℚ :=
  let l1 := l.dropWhile isWsChar
  let p := readSign l1
  let intPart := p.2.takeWhile isDigitChar
  let l3 := p.2.drop intPart.length
  let fp : List Char × List Char :=
    match l3 with
    | '.' :: t => (t.takeWhile isDigitChar, t.drop (t.takeWhile isDigitChar).length)
    | _ => ([], l3)
  if intPart = [] ∧ fp.1 = [] then none
  else
    let mant : ℚ := (digitsVal intPart : ℚ) + (digitsVal fp.1 : ℚ) / (10 : ℚ) ^ fp.1.length
    let expo : ℤ :=
      match fp.2 with
      | e :: t =>
        if e = 'e' ∨ e = 'E' then
          let q := readSign t
          let ds := q.2.takeWhile isDigitChar
          if ds = [] then 0 else q.1 * digitsVal ds
        else 0
      | [] => 0
    some ((p.1 : ℚ) * mant * (10 : ℚ) ^ expo)

/-- Model of `safeFloat` from `dataService.ts`: a value of JS type `number` is
returned unchanged (note: this includes NaN, because `typeof NaN` is
`'number'`); any other value is run through `parseFloat` and an NaN result
is replaced by 0.  `parseFloat` applied to `null`, `undefined`, a boolean or
any other non-string first coerces it to a string, none of which parse, so
those cases yield 0. -/
def safeFloat : JSValue → JSNum
  | .num n => n
  | .str s =>
    match parseFloatJS s.data with
    | some q => .finite q
    | none => .finite 0
  | .nullv => .finite 0
  | .undef => .finite 0
  | .boolv _ => .finite 0

namespace CONVERSIONS

def SCM_TO_MMBTU : ℚ := 0.0396

def KWH_TO_MMBTU : ℚ := 0.003412

def KL_TO_MMBTU_HSD : ℚ := 35.8

def BARREL_TO_MMBTU_OIL : ℚ := 5.8

def MMBTU_TO_GJ : ℚ := 1.05506

end CONVERSIONS

namespace EMISSION_FACTORS

def GAS_KGCO2_PER_SCM : ℚ := 1.88

def HSD_KGCO2_PER_KL : ℚ := 2650

def GRID_ELEC_KGCO2_PER_KWH : ℚ := 0.82

end EMISSION_FACTORS

/-- One raw row as consumed by `processPlantData`; each field holds the
untyped cell looked up under the corresponding fixed header string.  The
`Date` cell is carried as `Option String`: after `readDataFile`'s
normalization the claims only exercise string-valued (or absent) dates. -/
structure RawPlantData where
  plantName : Option String
  date : Option String
  gasFlaredSCM : JSValue
  gasConsBoilerSCM : JSValue
  gasConsFurnaceSCM : JSValue
  gasConsGDUSCM : JSValue
  gasConsEngineSCM : JSValue
  gasConsCompressorSCM : JSValue
  elecConsGCSkWh : JSValue
  elecConsETPkWh : JSValue
  elecConsRefinerykWh : JSValue
  elecGeneratedkWh : JSValue
  elecImportedkWh : JSValue
  waterConsGCSm3 : JSValue
  waterConsRefinerym3 : JSValue
  hsdConsPumpsKL : JSValue
  hsdConsGensetsKL : JSValue
  hsdIssuedFireKL : JSValue
  hsdIssuedPSAKL : JSValue
  hsdIssuedOthersKL : JSValue
  gasProductionSCM : JSValue
  oilProductionBarrels : JSValue
  expectedEnergyConsMMBTU : JSValue
deriving DecidableEq

/-- One processed record, mirroring the `ProcessedPlantData` interface. -/
structure ProcessedPlantData where
  plantName : String
  date : String
  gasFlared : JSNum
  gasBoiler : JSNum
  gasFurnace : JSNum
  gasGDU : JSNum
  gasEngine : JSNum
  gasCompressor : JSNum
  gasTotalInternal : JSNum
  elecGCS : JSNum
  elecETP : JSNum
  elecRefinery : JSNum
  elecTotalConsumed : JSNum
  waterGCS : JSNum
  waterRefinery : JSNum
  waterTotal : JSNum
  elecGenerated : JSNum
  hsdPumps : JSNum
  hsdGensets : JSNum
  hsdTotalConsumed : JSNum
  hsdIssuedFire : JSNum
  hsdIssuedPSA : JSNum
  hsdIssuedOthers : JSNum
  hsdTotalIssued : JSNum
  energyFromGasMMBTU : JSNum
  energyFromHSDMMBTU : JSNum
  totalEnergyExpendedMMBTU : JSNum
  gasProduced : JSNum
  oilProduced : JSNum
  energyFromGasProdMMBTU : JSNum
  energyFromOilProdMMBTU : JSNum
  totalEnergyProducedMMBTU : JSNum
  elecImported : JSNum
  ghgScope1 : JSNum
  ghgScope2 : JSNum
  ghgTotal : JSNum
  expectedEnergyMMBTU : JSNum
  sec : JSNum
  eii : JSNum
  emissionIntensity : JSNum
deriving DecidableEq

/-- Model of JS `raw[key] || fallback` for a string-valued cell: an absent
cell or the empty string (both falsy) select the fallback. -/
def orFallback (v : Option String) (fallback : String) : String :=
  match v with
  | some s => if s = "" then fallback else s
  | none => fallback

/-- Model of `processPlantData` from `dataService.ts`, transcribed clause by clause. -/
def processPlantData (raw : RawPlantData) : ProcessedPlantData :=
  let gasFlared := safeFloat raw.gasFlaredSCM
  let gasBoiler := safeFloat raw.gasConsBoilerSCM
  let gasFurnace := safeFloat raw.gasConsFurnaceSCM
  let gasGDU := safeFloat raw.gasConsGDUSCM
  let gasEngine := safeFloat raw.gasConsEngineSCM
  let gasCompressor := safeFloat raw.gasConsCompressorSCM
  let gasTotalInternal := (((gasBoiler.add gasFurnace).add gasGDU).add gasEngine).add gasCompressor
  let elecGCS := safeFloat raw.elecConsGCSkWh
  let elecETP := safeFloat raw.elecConsETPkWh
  let elecRefinery := safeFloat raw.elecConsRefinerykWh
  let elecTotalConsumed := (elecGCS.add elecETP).add elecRefinery
  let waterGCS := safeFloat raw.waterConsGCSm3
  let waterRefinery := safeFloat raw.waterConsRefinerym3
  let waterTotal := waterGCS.add waterRefinery
  let elecGenerated := safeFloat raw.elecGeneratedkWh
  let hsdPumps := safeFloat raw.hsdConsPumpsKL
  let hsdGensets := safeFloat raw.hsdConsGensetsKL
  let hsdTotalConsumed := hsdPumps.add hsdGensets
  let hsdIssuedFire := safeFloat raw.hsdIssuedFireKL
  let hsdIssuedPSA := safeFloat raw.hsdIssuedPSAKL
  let hsdIssuedOthers := safeFloat raw.hsdIssuedOthersKL
  let hsdTotalIssued := (hsdIssuedFire.add hsdIssuedPSA).add hsdIssuedOthers
  let energyFromGasMMBTU := gasTotalInternal.mul (.finite CONVERSIONS.SCM_TO_MMBTU)
  let energyFromHSDMMBTU := hsdTotalConsumed.mul (.finite CONVERSIONS.KL_TO_MMBTU_HSD)
  let totalEnergyExpendedMMBTU := energyFromGasMMBTU.add energyFromHSDMMBTU
  let gasProduced := safeFloat raw.gasProductionSCM
  let oilProduced := safeFloat raw.oilProductionBarrels
  let energyFromGasProdMMBTU := gasProduced.mul (.finite CONVERSIONS.SCM_TO_MMBTU)
  let energyFromOilProdMMBTU := oilProduced.mul (.finite CONVERSIONS.BARREL_TO_MMBTU_OIL)
  let totalEnergyProducedMMBTU := energyFromGasProdMMBTU.add energyFromOilProdMMBTU
  let elecImported := safeFloat raw.elecImportedkWh
  let scope1Tonnes :=
    ((gasTotalInternal.mul (.finite EMISSION_FACTORS.GAS_KGCO2_PER_SCM)).add
      (hsdTotalConsumed.mul (.finite EMISSION_FACTORS.HSD_KGCO2_PER_KL))).div (.finite 1000)
  let scope2Tonnes := (elecImported.mul (.finite EMISSION_FACTORS.GRID_ELEC_KGCO2_PER_KWH)).div (.finite 1000)
  let ghgTotal := scope1Tonnes.add scope2Tonnes
  let expectedEnergyMMBTU := safeFloat raw.expectedEnergyConsMMBTU
  let sec :=
    if JSNum.ltb (.finite 0) totalEnergyProducedMMBTU then
      energyFromGasMMBTU.div totalEnergyProducedMMBTU
    else .finite 0
  let eii :=
    if JSNum.ltb (.finite 0) expectedEnergyMMBTU then
      (totalEnergyExpendedMMBTU.div expectedEnergyMMBTU).mul (.finite 100)
    else .finite 0
  let emissionIntensity :=
    if JSNum.ltb (.finite 0) gasProduced then ghgTotal.div gasProduced else .finite 0
  { plantName := orFallback raw.plantName "Unknown Plant"
    date := orFallback raw.date "Unknown Date"
    gasFlared := gasFlared
    gasBoiler := gasBoiler, gasFurnace := gasFurnace, gasGDU := gasGDU
    gasEngine := gasEngine, gasCompressor := gasCompressor
    gasTotalInternal := gasTotalInternal
    elecGCS := elecGCS, elecETP := elecETP, elecRefinery := elecRefinery
    elecTotalConsumed := elecTotalConsumed
    waterGCS := waterGCS, waterRefinery := waterRefinery, waterTotal := waterTotal
    elecGenerated := elecGenerated
    hsdPumps := hsdPumps, hsdGensets := hsdGensets, hsdTotalConsumed := hsdTotalConsumed
    hsdIssuedFire := hsdIssuedFire, hsdIssuedPSA := hsdIssuedPSA
    hsdIssuedOthers := hsdIssuedOthers, hsdTotalIssued := hsdTotalIssued
    energyFromGasMMBTU := energyFromGasMMBTU, energyFromHSDMMBTU := energyFromHSDMMBTU
    totalEnergyExpendedMMBTU := totalEnergyExpendedMMBTU
    gasProduced := gasProduced, oilProduced := oilProduced
    energyFromGasProdMMBTU := energyFromGasProdMMBTU
    energyFromOilProdMMBTU := energyFromOilProdMMBTU
    totalEnergyProducedMMBTU := totalEnergyProducedMMBTU
    elecImported := elecImported, ghgScope1 := scope1Tonnes, ghgScope2 := scope2Tonnes
    ghgTotal := ghgTotal
    expectedEnergyMMBTU := expectedEnergyMMBTU
    sec := sec, eii := eii, emissionIntensity := emissionIntensity }

/-- Model of `getBlankPlantData` from `dataService.ts`: the all-zero placeholder. -/
def getBlankPlantData : ProcessedPlantData :=
  { plantName := "Select Plant", date := "Select Date"
    gasFlared := .finite 0
    gasBoiler := .finite 0, gasFurnace := .finite 0, gasGDU := .finite 0
    gasEngine := .finite 0, gasCompressor := .finite 0, gasTotalInternal := .finite 0
    elecGCS := .finite 0, elecETP := .finite 0, elecRefinery := .finite 0
    elecTotalConsumed := .finite 0
    waterGCS := .finite 0, waterRefinery := .finite 0, waterTotal := .finite 0
    elecGenerated := .finite 0
    hsdPumps := .finite 0, hsdGensets := .finite 0, hsdTotalConsumed := .finite 0
    hsdIssuedFire := .finite 0, hsdIssuedPSA := .finite 0, hsdIssuedOthers := .finite 0
    hsdTotalIssued := .finite 0
    energyFromGasMMBTU := .finite 0, energyFromHSDMMBTU := .finite 0
    totalEnergyExpendedMMBTU := .finite 0
    gasProduced := .finite 0, oilProduced := .finite 0
    energyFromGasProdMMBTU := .finite 0, energyFromOilProdMMBTU := .finite 0
    totalEnergyProducedMMBTU := .finite 0
    elecImported := .finite 0, ghgScope1 := .finite 0, ghgScope2 := .finite 0
    ghgTotal := .finite 0
    expectedEnergyMMBTU := .finite 0
    sec := .finite 0, eii := .finite 0, emissionIntensity := .finite 0 }

/-!
### Date sort key (`parseDateString` in the application file)

JS `String.prototype.split` on a one-character separator is modelled by
`splitCh` over the string's character list, and JS `parseInt(s, 10)` by
`parseIntJS`.  `Date.UTC(year, month, day)` is modelled by an exact
proleptic-Gregorian day count (`jsDateUTCms`).
-/

/-- Helper for `splitCh`: first segment before the separator, and the
remaining segments. -/
def splitChAux (c : Char) : List Char → List Char × List (List Char)
  | [] => ([], [])
  | a :: t =>
    let r := splitChAux c t
    if a = c then ([], r.1 :: r.2) else (a :: r.1, r.2)

/-- Model of JS `str.split(c)` for a one-character separator `c`. -/
def splitCh (c : Char) (l : List Char) : List (List Char) :=
  (splitChAux c l).1 :: (splitChAux c l).2

/-- Model of JS `parseInt(s, 10)`: skip leading whitespace, optional sign,
then the maximal prefix of decimal digits; `none` models NaN. -/
def parseIntJS (l : List Char) : Option ℤ :=
  let l1 := l.dropWhile isWsChar
  let p := readSign l1
  let ds := p.2.takeWhile isDigitChar
  if ds = [] then none else some (p.1 * digitsVal ds)

/-- The twelve month abbreviations keying the `months` lookup table, in
index order (`Jan` is month 0). -/
def monthNames : List (List Char) :=
  ["Jan".data, "Feb".data, "Mar".data, "Apr".data, "May".data, "Jun".data,
   "Jul".data, "Aug".data, "Sep".data, "Oct".data, "Nov".data, "Dec".data]

/-- Gregorian leap-year test. -/
def isLeap (y : ℤ) : Bool := y % 4 == 0 && (y % 100 != 0 || y % 400 == 0)

/-- Number of days in year `y`. -/
def daysInYear (y : ℤ) : ℕ := if isLeap y then 366 else 365

/-- Number of days of month `m` (0-based) of year `y`, for `m ≤ 11`. -/
def daysInMonth (y : ℤ) (m : ℕ) : ℕ :=
  ([31, if isLeap y then 29 else 28, 31, 30, 31, 30, 31, 31, 30, 31, 30, 31].getD m 0)

/-- Days of year `y` before the start of month `m` (0-based). -/
def daysBeforeMonth (y : ℤ) : ℕ → ℕ
  | 0 => 0
  | m + 1 => daysBeforeMonth y m + daysInMonth y m

/-- Total days of the `k` consecutive years starting with year `y`. -/
def yearSpanDays (y : ℤ) : ℕ → ℕ
  | 0 => 0
  | k + 1 => yearSpanDays y k + daysInYear (y + k)

/-- Signed day count from 1970-01-01 to the start of year `y`. -/
def yearStartDays (y : ℤ) : ℤ :=
  if 1970 ≤ y then (yearSpanDays 1970 (y - 1970).toNat : ℤ)
  else -(yearSpanDays y (1970 - y).toNat : ℤ)

/-- Model of `Date.UTC(y, m, d)` (milliseconds since the epoch) for a month
index `0 ≤ m ≤ 11` and a year `y ≥ 100`; the modelled code always passes a
month index from the twelve-entry table (or 0) and a year of 2000 or more.
(JS additionally maps years 0–99 to 1900–1999, unreachable here.)  An
out-of-range day rolls across month and year boundaries exactly as in JS,
since the formula is an exact day count. -/
def jsDateUTCms (y : ℤ) (m : ℕ) (d : ℤ) : ℤ :=
  (yearStartDays y + daysBeforeMonth y m + d - 1) * 86400000

/-- The property names the `months` object literal inherits from
`Object.prototype` (standard methods, the `__proto__` accessor and the
legacy getter/setter methods): for these keys `months[monthStr]` is a
function or object, so `months[monthStr] !== undefined` is true even though
the key names no month. -/
def objectProtoProps : List (List Char) :=
  ["constructor".data, "hasOwnProperty".data, "isPrototypeOf".data,
   "propertyIsEnumerable".data, "toLocaleString".data, "toString".data,
   "valueOf".data, "__proto__".data, "__defineGetter__".data,
   "__defineSetter__".data, "__lookupGetter__".data, "__lookupSetter__".data]

/-- Model of `months[monthStr] !== undefined ? months[monthStr] : 0`: one
of the twelve own entries yields its numeric index (`some i`); a property
inherited from `Object.prototype` passes the `!== undefined` test but holds
a function or object, which `Date.UTC`'s numeric coercion turns into NaN
(`none`); any other key misses and falls back to month 0. -/
def monthValue (p1 : List Char) : Option ℕ :=
  match monthNames.findIdx? (fun nm => nm == p1) with
  | some i => some i
  | none => if p1 ∈ objectProtoProps then none else some 0

/-- Model of `parseDateString` from the application file, over a character list:
split on `-`; a segment count other than 3 yields the fixed sentinel 0;
otherwise parse the day, look the month up in the `months` object (taking
whatever the property access yields, falling back to 0 only when it is
`undefined`), parse the 2-digit year as 2000+, and build a UTC timestamp.
`none` models the NaN produced when `parseInt` fails on the day or year
segment, or when the month value is a non-numeric inherited property. -/
def parseDateL (l : List Char) : Option ℤ :=
  match splitCh '-' l with
  | [p0, p1, p2] =>
    match parseIntJS p0, parseIntJS p2, monthValue p1 with
    | some day, some yearPart, some month => some (jsDateUTCms (2000 + yearPart) month day)
    | _, _, _ => none
  | _ => some 0

/-- The sort key `parseDateString` on a Lean string. -/
def parseDateString (s : String) : Option ℤ := parseDateL s.data

/-- An ASCII digit character, `'9'` for arguments above 9. -/
def digitCh : ℕ → Char
  | 0 => '0'
  | 1 => '1'
  | 2 => '2'
  | 3 => '3'
  | 4 => '4'
  | 5 => '5'
  | 6 => '6'
  | 7 => '7'
  | 8 => '8'
  | _ => '9'

/-- Model of `n.toString().padStart(2, '0')` for `n < 100`. -/
def pad2 (n : ℕ) : List Char :=
  if n < 10 then ['0', digitCh n] else [digitCh (n / 10), digitCh (n % 10)]

/-- The canonical `DD-Mon-YY` string for day `d`, month index `m` (0-based)
and 2-digit year `y`. -/
def canonicalDate (d m y : ℕ) : String :=
  ⟨pad2 d ++ '-' :: monthNames.getD m [] ++ '-' :: pad2 y⟩

/-!
### Dataset index (derived views in the application file)
-/

/-- Deduplication keeping the first occurrence of each element, as
`Array.from(new Set(xs))` does. -/
def uniqueFirst {α : Type} [DecidableEq α] : List α → List α
  | [] => []
  | a :: t => a :: uniqueFirst (t.filter (fun b => b ≠ a))
termination_by l => l.length
decreasing_by simp only [List.length_cons]; exact Nat.lt_succ_of_le (List.length_filter_le _ _)

/-- The numeric sort key the date comparator uses; NaN (an unparseable day
or year segment) is mapped to 0 here, where JS would feed NaN into the
comparator with unspecified resulting order. -/
def dateKey (s : String) : ℤ := (parseDateString s).getD 0

/-- Model of `availableDates`: unique date strings of the dataset, sorted ascending
by the `parseDateString` key. -/
def availableDates (allData : List ProcessedPlantData) : List String :=
  (uniqueFirst (allData.map (fun d => d.date))).mergeSort
    (fun a b => decide (dateKey a ≤ dateKey b))

/-- One step of the min/max scan of `secStats`, mirroring the loop body:
replace the minimum when `d.sec < min.sec`, the maximum when
`d.sec > max.sec`. -/
def secScanStep (mm : ProcessedPlantData × ProcessedPlantData) (d : ProcessedPlantData) :
    ProcessedPlantData × ProcessedPlantData :=
  (if JSNum.ltb d.sec mm.1.sec then d else mm.1,
   if JSNum.ltb mm.2.sec d.sec then d else mm.2)

/-- Model of `secStats`: with no selected date, `none`; otherwise restrict to records
of the selected date with strictly positive `sec` and scan for the records
attaining the minimum and maximum `sec`, starting both at the first
qualifying record; `none` when no record qualifies. -/
def secStats (allData : List ProcessedPlantData) (selectedDate : String) :
    Option (ProcessedPlantData × ProcessedPlantData) :=
  if selectedDate = "" then none
  else
    match allData.filter (fun d => JSNum.ltb (.finite 0) d.sec && d.date == selectedDate) with
    | [] => none
    | h :: t => some ((h :: t).foldl secScanStep (h, h))

/-!
### File ingestion (`readDataFile` and `handleFileUpload`)
-/

/-- The outcomes of the asynchronous file read feeding `readDataFile`:
the reader delivered content that parsed to rows (`loaded (some rows)`),
delivered content the spreadsheet reader threw on (`loaded none`),
delivered no content at all (`emptyResult`), or itself errored
(`readError`). -/
inductive FileReadEvent where
  | loaded (content : Option (List RawPlantData))
  | emptyResult
  | readError
deriving DecidableEq

/-- Model of `readDataFile`: parsed rows resolve as-is; a parse exception is caught
and resolves the empty list (the `catch` block's `resolve([])`); an absent
payload resolves the empty list; only a reader error rejects. -/
def readDataFile : FileReadEvent → Except Unit (List RawPlantData)
  | .loaded (some rows) => .ok rows
  | .loaded none => .ok []
  | .emptyResult => .ok []
  | .readError => .error ()

/-- The dataset-state effect of `handleFileUpload`: a resolved read replaces
the whole dataset with the processed rows; a rejected read leaves the
previous dataset in place (the `catch` block only alerts). -/
def handleFileUpload (prev : List ProcessedPlantData) (ev : FileReadEvent) :
    List ProcessedPlantData :=
  match readDataFile ev with
  | .ok raw => raw.map processPlantData
  | .error _ => prev

/-!
### Lemmas about splitting and digit parsing
-/

theorem splitChAux_not_mem {c : Char} {l : List Char} (h : c ∉ l) :
    splitChAux c l = (l, []) := by
  induction l with
  | nil => rfl
  | cons a t ih =>
    have ha : a ≠ c := fun e => h (e ▸ List.mem_cons_self a t)
    have ht : c ∉ t := fun m => h (List.mem_cons_of_mem a m)
    simp [splitChAux, ha, ih ht]

theorem splitChAux_append {c : Char} {l₁ l₂ : List Char} (h : c ∉ l₁) :
    splitChAux c (l₁ ++ c :: l₂) = (l₁, (splitChAux c l₂).1 :: (splitChAux c l₂).2) := by
  induction l₁ with
  | nil => simp [splitChAux]
  | cons a t ih =>
    have ha : a ≠ c := fun e => h (e ▸ List.mem_cons_self a t)
    have ht : c ∉ t := fun m => h (List.mem_cons_of_mem a m)
    simp [splitChAux, ha, ih ht]

theorem splitChAux_fst_not_mem (c : Char) (l : List Char) : c ∉ (splitChAux c l).1 := by
  induction l with
  | nil => simp [splitChAux]
  | cons a t ih =>
    by_cases ha : a = c
    · simp [splitChAux, ha]
    · simp only [splitChAux, if_neg ha]
      intro hmem
      rcases List.mem_cons.mp hmem with h | h
      · exact ha h.symm
      · exact ih h

theorem splitChAux_snd_not_mem (c : Char) (l : List Char) :
    ∀ p ∈ (splitChAux c l).2, c ∉ p := by
  induction l with
  | nil => simp [splitChAux]
  | cons a t ih =>
    by_cases ha : a = c
    · simp only [splitChAux, if_pos ha]
      intro p hp
      rcases List.mem_cons.mp hp with h | h
      · exact h ▸ splitChAux_fst_not_mem c t
      · exact ih p h
    · simpa [splitChAux, ha] using ih

theorem digitCh_spec (k : ℕ) :
    isDigitChar (digitCh k) = true ∧ isWsChar (digitCh k) = false ∧
      digitCh k ≠ '+' ∧ digitCh k ≠ '-' := by
  rcases k with _|_|_|_|_|_|_|_|_|k
  · decide
  · decide
  · decide
  · decide
  · decide
  · decide
  · decide
  · decide
  · decide
  · exact ⟨(by decide : isDigitChar '9' = true), (by decide : isWsChar '9' = false),
      (by decide : ('9' : Char) ≠ '+'), (by decide : ('9' : Char) ≠ '-')⟩

theorem digitVal_digitCh {k : ℕ} (h : k < 10) : digitVal (digitCh k) = k := by
  interval_cases k <;> decide

theorem dash_not_mem_pad2 (n : ℕ) : '-' ∉ pad2 n := by
  unfold pad2
  split <;> intro hmem <;> rcases List.mem_cons.mp hmem with h | h
  · exact absurd h (by decide)
  · rcases List.mem_cons.mp h with h | h
    · exact (digitCh_spec n).2.2.2 h.symm
    · simp at h
  · exact (digitCh_spec (n / 10)).2.2.2 h.symm
  · rcases List.mem_cons.mp h with h | h
    · exact (digitCh_spec (n % 10)).2.2.2 h.symm
    · simp at h

theorem parseIntJS_pad2 {n : ℕ} (h : n < 100) : parseIntJS (pad2 n) = some (n : ℤ) := by
  unfold pad2 parseIntJS
  by_cases h10 : n < 10
  · have hd := digitCh_spec n
    simp only [if_pos h10, List.dropWhile_cons, show isWsChar '0' = false from rfl,
      Bool.false_eq_true, if_neg, readSign, show ('0' = '+') = False from by simp,
      show ('0' = '-') = False from by simp, if_false,
      List.takeWhile_cons, show isDigitChar '0' = true from rfl, hd.1, if_true,
      List.takeWhile_nil, digitsVal, List.foldl_cons, List.foldl_nil]
    rw [digitVal_digitCh h10]
    simp [digitVal]
  · have h1 : n / 10 < 10 := by omega
    have h2 : n % 10 < 10 := by omega
    have hd1 := digitCh_spec (n / 10)
    have hd2 := digitCh_spec (n % 10)
    simp only [if_neg h10, List.dropWhile_cons, hd1.2.1, Bool.false_eq_true, if_false,
      readSign, if_neg hd1.2.2.1, if_neg hd1.2.2.2,
      List.takeWhile_cons, hd1.1, hd2.1, if_true, List.takeWhile_nil,
      digitsVal, List.foldl_cons, List.foldl_nil]
    rw [digitVal_digitCh h1, digitVal_digitCh h2]
    simp only [Nat.mul_zero, Nat.zero_add]
    have : 10 * (n / 10) + n % 10 = n := by omega
    simp [this]

theorem month_findIdx {m : ℕ} (hm : m < 12) :
    monthNames.findIdx? (fun nm => nm == monthNames.getD m []) = some m := by
  interval_cases m <;> decide

theorem dash_not_mem_month {m : ℕ} (hm : m < 12) : '-' ∉ monthNames.getD m [] := by
  interval_cases m <;> decide

theorem monthValue_canonical {m : ℕ} (hm : m < 12) :
    monthValue (monthNames.getD m []) = some m := by
  unfold monthValue
  rw [month_findIdx hm]

theorem parseDateL_three {l p0 p1 p2 : List Char} (h : splitCh '-' l = [p0, p1, p2]) :
    parseDateL l =
      match parseIntJS p0, parseIntJS p2, monthValue p1 with
      | some day, some yearPart, some month =>
          some (jsDateUTCms (2000 + yearPart) month day)
      | _, _, _ => none := by
  unfold parseDateL
  rw [h]

theorem parseDateString_canonical {d m y : ℕ} (hd : d < 100) (hm : m < 12) (hy : y < 100) :
    parseDateString (canonicalDate d m y) = some (jsDateUTCms (2000 + (y : ℤ)) m (d : ℤ)) := by
  have h1 : splitChAux '-' (pad2 y) = (pad2 y, []) := splitChAux_not_mem (dash_not_mem_pad2 y)
  have h2 : splitChAux '-' (monthNames.getD m [] ++ '-' :: pad2 y)
      = (monthNames.getD m [], [pad2 y]) := by
    rw [splitChAux_append (dash_not_mem_month hm), h1]
  have h3 : splitChAux '-' (pad2 d ++ '-' :: (monthNames.getD m [] ++ '-' :: pad2 y))
      = (pad2 d, [monthNames.getD m [], pad2 y]) := by
    rw [splitChAux_append (dash_not_mem_pad2 d), h2]
  have hassoc : pad2 d ++ '-' :: monthNames.getD m [] ++ '-' :: pad2 y
      = pad2 d ++ '-' :: (monthNames.getD m [] ++ '-' :: pad2 y) := by
    rw [List.append_assoc, List.cons_append]
  have hsplit : splitCh '-' (pad2 d ++ '-' :: monthNames.getD m [] ++ '-' :: pad2 y)
      = [pad2 d, monthNames.getD m [], pad2 y] := by
    unfold splitCh
    rw [hassoc, h3]
  show parseDateL (pad2 d ++ '-' :: monthNames.getD m [] ++ '-' :: pad2 y) = _
  rw [parseDateL_three hsplit, parseIntJS_pad2 hd, parseIntJS_pad2 hy, monthValue_canonical hm]

/-!
### Calendar arithmetic lemmas
-/

theorem daysInYear_bounds (y : ℤ) : 365 ≤ daysInYear y ∧ daysInYear y ≤ 366 := by
  unfold daysInYear
  split <;> omega

theorem daysBeforeMonth_mono (y : ℤ) {m1 m2 : ℕ} (h : m1 ≤ m2) :
    daysBeforeMonth y m1 ≤ daysBeforeMonth y m2 := by
  induction h with
  | refl => exact le_rfl
  | step h ih => exact le_trans ih (Nat.le_add_right _ _)

theorem daysBeforeMonth_twelve (y : ℤ) : daysBeforeMonth y 12 = daysInYear y := by
  show 0 + daysInMonth y 0 + daysInMonth y 1 + daysInMonth y 2 + daysInMonth y 3 +
      daysInMonth y 4 + daysInMonth y 5 + daysInMonth y 6 + daysInMonth y 7 +
      daysInMonth y 8 + daysInMonth y 9 + daysInMonth y 10 + daysInMonth y 11 = daysInYear y
  by_cases h : isLeap y <;> simp [daysInMonth, daysInYear, h]

theorem yearSpanDays_succ_front (y : ℤ) (k : ℕ) :
    yearSpanDays y (k + 1) = daysInYear y + yearSpanDays (y + 1) k := by
  induction k generalizing y with
  | zero => simp [yearSpanDays]
  | succ k ih =>
    show yearSpanDays y (k + 1) + daysInYear (y + ↑(k + 1))
        = daysInYear y + (yearSpanDays (y + 1) k + daysInYear (y + 1 + ↑k))
    rw [ih]
    have hc : y + ↑(k + 1) = y + 1 + (k : ℤ) := by push_cast; ring
    rw [hc]
    omega

theorem yearSpanDays_mono (y : ℤ) {k1 k2 : ℕ} (h : k1 ≤ k2) :
    yearSpanDays y k1 ≤ yearSpanDays y k2 := by
  induction h with
  | refl => exact le_rfl
  | step h ih => exact le_trans ih (Nat.le_add_right _ _)

theorem yearSpanDays_step_le (y : ℤ) {k1 k2 : ℕ} (h : k1 < k2) :
    yearSpanDays y k1 + daysInYear (y + (k1 : ℤ)) ≤ yearSpanDays y k2 := by
  have e : yearSpanDays y (k1 + 1) = yearSpanDays y k1 + daysInYear (y + (k1 : ℤ)) := rfl
  rw [← e]
  exact yearSpanDays_mono y h

theorem le_yearSpanDays (y : ℤ) (k : ℕ) : 365 * k ≤ yearSpanDays y k := by
  induction k with
  | zero => simp [yearSpanDays]
  | succ k ih =>
    have hb := (daysInYear_bounds (y + (k : ℤ))).1
    show 365 * (k + 1) ≤ yearSpanDays y k + daysInYear (y + (k : ℤ))
    omega

theorem yearStartDays_1970_add (k : ℕ) :
    yearStartDays (1970 + (k : ℤ)) = (yearSpanDays 1970 k : ℤ) := by
  unfold yearStartDays
  rw [if_pos (by omega)]
  rw [show ((1970 : ℤ) + (k : ℤ) - 1970).toNat = k from by omega]

/-- Within-year day offset of a valid date is below the year length. -/
theorem offset_lt_daysInYear {y : ℤ} {m d : ℕ} (hm : m < 12)
    (hd1 : 1 ≤ d) (hd2 : d ≤ daysInMonth y m) :
    daysBeforeMonth y m + (d - 1) < daysInYear y := by
  have e1 : daysBeforeMonth y (m + 1) = daysBeforeMonth y m + daysInMonth y m := rfl
  have e2 : daysBeforeMonth y (m + 1) ≤ daysBeforeMonth y 12 :=
    daysBeforeMonth_mono y (by omega)
  have e3 : daysBeforeMonth y 12 = daysInYear y := daysBeforeMonth_twelve y
  omega

/-- Strict monotonicity of the modelled `Date.UTC` timestamp on valid dates
with years at or after 1970, in calendar (year, month, day) order. -/
theorem jsDateUTCms_mono {k1 k2 m1 m2 d1 d2 : ℕ}
    (hm1 : m1 < 12) (hm2 : m2 < 12)
    (hd1a : 1 ≤ d1) (hd1b : d1 ≤ daysInMonth (1970 + (k1 : ℤ)) m1)
    (hd2a : 1 ≤ d2)
    (h : k1 < k2 ∨ (k1 = k2 ∧ (m1 < m2 ∨ (m1 = m2 ∧ d1 < d2)))) :
    jsDateUTCms (1970 + (k1 : ℤ)) m1 (d1 : ℤ) < jsDateUTCms (1970 + (k2 : ℤ)) m2 (d2 : ℤ) := by
  unfold jsDateUTCms
  rw [yearStartDays_1970_add, yearStartDays_1970_add]
  refine mul_lt_mul_of_pos_right ?_ (by norm_num)
  rcases h with hk | ⟨rfl, hm | ⟨rfl, hd⟩⟩
  · have hA : daysBeforeMonth (1970 + (k1 : ℤ)) m1 + (d1 - 1) < daysInYear (1970 + (k1 : ℤ)) :=
      offset_lt_daysInYear hm1 hd1a hd1b
    have hB := yearSpanDays_step_le 1970 hk
    omega
  · have e1 : daysBeforeMonth (1970 + (k1 : ℤ)) (m1 + 1)
        = daysBeforeMonth (1970 + (k1 : ℤ)) m1 + daysInMonth (1970 + (k1 : ℤ)) m1 := rfl
    have e2 : daysBeforeMonth (1970 + (k1 : ℤ)) (m1 + 1) ≤ daysBeforeMonth (1970 + (k1 : ℤ)) m2 :=
      daysBeforeMonth_mono _ (by omega)
    omega
  · omega

/-!
### Date cell normalization in `readDataFile`

The numeric-serial branch of `readDataFile`'s per-row post-processing, and
the inverse calendar extraction (`getFullYear`/`getMonth`/`getDate`) that
formats the canonical string.  The runtime's local time zone is modelled as
UTC: the code's deliberate 12-hour forward shift exists precisely to make
the extracted calendar day independent of the zone offset.
-/

/-- Model of JS `Math.round`: round half toward positive infinity. -/
def jsRound (q : ℚ) : ℤ := ⌊q + 1 / 2⌋

/-- Finds the year containing day-of-era offset `n` (days since the start
of year `y`), returning the year and the remaining day-of-year offset. -/
def yearFromDays (y : ℤ) (n : ℕ) : ℤ × ℕ :=
  if _h : n < daysInYear y then (y, n) else yearFromDays (y + 1) (n - daysInYear y)
termination_by n
decreasing_by
  have := (daysInYear_bounds y).1
  omega

/-- Finds the month containing day-of-year offset `n`, starting the scan at
month `m`; December absorbs any remainder. -/
def monthFromDOY (y : ℤ) (m n : ℕ) : ℕ × ℕ :=
  if _h : 11 ≤ m then (m, n)
  else if n < daysInMonth y m then (m, n)
  else monthFromDOY y (m + 1) (n - daysInMonth y m)
termination_by 12 - m

/-- Calendar fields (year, 0-based month, 1-based day) of the day `n` days
after 1970-01-01. -/
def civilFromDays (n : ℕ) : ℤ × ℕ × ℕ :=
  ((yearFromDays 1970 n).1,
   (monthFromDOY (yearFromDays 1970 n).1 0 (yearFromDays 1970 n).2).1,
   (monthFromDOY (yearFromDays 1970 n).1 0 (yearFromDays 1970 n).2).2 + 1)

/-- Calendar fields of a nonnegative epoch moment in milliseconds; the JS
date accessors floor-divide by the number of milliseconds per day. -/
def civilFromMs (ms : ℤ) : ℤ × ℕ × ℕ := civilFromDays (ms.fdiv 86400000).toNat

/-- The canonical `DD-Mon-YY` string of calendar fields: 2-digit zero-padded
day, 3-letter month, last two digits of the year (`getFullYear().toString()
.slice(-2)`, which for the years at issue — all at least 1970 — is the
zero-padded year modulo 100). -/
def formatDMY (c : ℤ × ℕ × ℕ) : String :=
  canonicalDate c.2.2 c.2.1 ((c.1 % 100).toNat)

/-- The `Date` cell of a row as `readDataFile` sees it after sheet parsing:
a string, a raw number (legacy serial), a date object (milliseconds since
the epoch), or absent. -/
inductive DateCell where
  | strv (s : String)
  | numv (q : ℚ)
  | dateObj (ms : ℤ)
  | absent
deriving DecidableEq

/-- The per-cell `Date` post-processing of `readDataFile`: a date object is
shifted 12 hours forward and formatted; a numeric cell is converted only
when it exceeds 30000, via `round((serial - 25569) * 86400 * 1000)` plus 12
hours, then formatted; anything else is left unchanged.  (A numeric cell of
exactly 0 is falsy and skips the branch in JS, with the same unchanged
result.) -/
def normalizeDateCell : DateCell → DateCell
  | .strv s => .strv s
  | .dateObj ms => .strv (formatDMY (civilFromMs (ms + 43200000)))
  | .numv q =>
    if 30000 < q then
      .strv (formatDMY (civilFromMs (jsRound ((q - 25569) * 86400000) + 43200000)))
    else .numv q
  | .absent => .absent

/-- Days in months `j, j+1, …, j+c-1` of year `y`. -/
def monthSpan (y : ℤ) (j : ℕ) : ℕ → ℕ
  | 0 => 0
  | c + 1 => monthSpan y j c + daysInMonth y (j + c)

theorem monthSpan_zero (y : ℤ) (m : ℕ) : monthSpan y 0 m = daysBeforeMonth y m := by
  induction m with
  | zero => rfl
  | succ m ih =>
    show monthSpan y 0 m + daysInMonth y (0 + m) = daysBeforeMonth y m + daysInMonth y m
    rw [ih, Nat.zero_add]

theorem monthSpan_succ_front (y : ℤ) (j c : ℕ) :
    monthSpan y j (c + 1) = daysInMonth y j + monthSpan y (j + 1) c := by
  induction c generalizing j with
  | zero =>
    show monthSpan y j 0 + daysInMonth y (j + 0) = daysInMonth y j + 0
    simp [monthSpan]
  | succ c ih =>
    show monthSpan y j (c + 1) + daysInMonth y (j + (c + 1))
        = daysInMonth y j + (monthSpan y (j + 1) c + daysInMonth y (j + 1 + c))
    rw [ih j, show j + (c + 1) = j + 1 + c from by omega]
    omega

theorem yearFromDays_span (y : ℤ) (k r : ℕ) (hr : r < daysInYear (y + (k : ℤ))) :
    yearFromDays y (yearSpanDays y k + r) = (y + (k : ℤ), r) := by
  induction k generalizing y with
  | zero =>
    have hr0 : r < daysInYear y := by
      have : y + ((0 : ℕ) : ℤ) = y := by push_cast; ring
      rwa [this] at hr
    unfold yearFromDays
    rw [show yearSpanDays y 0 + r = r from by simp [yearSpanDays], dif_pos hr0]
    simp
  | succ k ih =>
    have hfront := yearSpanDays_succ_front y k
    unfold yearFromDays
    rw [dif_neg (by omega)]
    have harg : yearSpanDays y (k + 1) + r - daysInYear y = yearSpanDays (y + 1) k + r := by
      omega
    rw [harg, ih (y + 1) (by
      have hc : y + ((k : ℤ) + 1) = y + 1 + (k : ℤ) := by ring
      rw [show ((Nat.succ k : ℕ) : ℤ) = (k : ℤ) + 1 from by push_cast; ring, hc] at hr
      exact hr)]
    rw [show y + 1 + (k : ℤ) = y + ((Nat.succ k : ℕ) : ℤ) from by push_cast; ring]

theorem monthFromDOY_span (y : ℤ) (j c r : ℕ) (hjc : j + c < 12)
    (hr : r < daysInMonth y (j + c)) :
    monthFromDOY y j (monthSpan y j c + r) = (j + c, r) := by
  induction c generalizing j with
  | zero =>
    have hr0 : r < daysInMonth y j := by simpa using hr
    unfold monthFromDOY
    rw [show monthSpan y j 0 + r = r from by simp [monthSpan]]
    by_cases h11 : 11 ≤ j
    · rw [dif_pos h11]
      simp
    · rw [dif_neg h11, if_pos hr0]
      simp
  | succ c ih =>
    have hfront := monthSpan_succ_front y j c
    unfold monthFromDOY
    rw [dif_neg (by omega : ¬ 11 ≤ j), if_neg (by omega)]
    have harg : monthSpan y j (c + 1) + r - daysInMonth y j = monthSpan y (j + 1) c + r := by
      omega
    rw [harg, ih (j + 1) (by omega) (by rw [show j + 1 + c = j + (c + 1) from by omega]; exact hr),
      show j + 1 + c = j + (c + 1) from by omega]

theorem civilFromDays_valid (k m d : ℕ) (hm : m < 12) (hd1 : 1 ≤ d)
    (hd2 : d ≤ daysInMonth (1970 + (k : ℤ)) m) :
    civilFromDays (yearSpanDays 1970 k + (daysBeforeMonth (1970 + (k : ℤ)) m + (d - 1)))
      = (1970 + (k : ℤ), m, d) := by
  have hoff : daysBeforeMonth (1970 + (k : ℤ)) m + (d - 1) < daysInYear (1970 + (k : ℤ)) :=
    offset_lt_daysInYear hm hd1 hd2
  have hyr := yearFromDays_span 1970 k (daysBeforeMonth (1970 + (k : ℤ)) m + (d - 1)) hoff
  have hmo : monthFromDOY (1970 + (k : ℤ)) 0 (daysBeforeMonth (1970 + (k : ℤ)) m + (d - 1))
      = (m, d - 1) := by
    have := monthFromDOY_span (1970 + (k : ℤ)) 0 m (d - 1) (by omega)
      (by simpa using (by omega : d - 1 < daysInMonth (1970 + (k : ℤ)) m))
    rwa [monthSpan_zero, Nat.zero_add] at this
  unfold civilFromDays
  rw [hyr, hmo]
  simp
  omega

theorem jsRound_intCast (z : ℤ) : jsRound ((z : ℚ)) = z := by
  unfold jsRound
  rw [show ((z : ℚ) + 1 / 2) = 1 / 2 + (z : ℚ) from by ring, Int.floor_add_int]
  norm_num

theorem fdiv_day_noon (n : ℕ) :
    (((n : ℤ) * 86400000 + 43200000).fdiv 86400000).toNat = n := by
  rw [Int.fdiv_eq_ediv _ (by norm_num)]
  rw [show ((n : ℤ) * 86400000 + 43200000) = 43200000 + (n : ℤ) * 86400000 from by ring]
  rw [Int.add_mul_ediv_right _ _ (by norm_num : (86400000 : ℤ) ≠ 0)]
  norm_num

/-!
### Sign and comparison lemmas
-/

theorem readSign_fst_one {l : List Char} (hl : '-' ∉ l) : (readSign l).1 = 1 := by
  rcases l with _ | ⟨a, t⟩
  · rfl
  · have ha : a ≠ '-' := fun e => hl (e ▸ List.mem_cons_self a t)
    by_cases hap : a = '+' <;> simp [readSign, hap, ha]

theorem parseIntJS_nonneg {l : List Char} (hl : '-' ∉ l) {n : ℤ}
    (h : parseIntJS l = some n) : 0 ≤ n := by
  have hdw : '-' ∉ l.dropWhile isWsChar :=
    fun hm => hl ((List.dropWhile_sublist isWsChar).mem hm)
  have hsign := readSign_fst_one hdw
  unfold parseIntJS at h
  simp only [] at h
  rw [hsign] at h
  split at h
  · exact absurd h (by simp)
  · have h2 := Option.some.inj h
    omega

theorem ltb_finite_iff {q r : ℚ} : JSNum.ltb (.finite q) (.finite r) = true ↔ q < r := by
  simp [JSNum.ltb]

theorem ltb_pos_finite {v : JSNum} (h : JSNum.ltb (.finite 0) v = true) :
    ∃ q : ℚ, v = .finite q ∧ 0 < q := by
  cases v with
  | finite q => exact ⟨q, rfl, by simpa [JSNum.ltb] using h⟩
  | nan => simp [JSNum.ltb] at h

theorem ltb_false_of_leb {x : JSNum} (h : JSNum.leb x (.finite 0) = true) :
    JSNum.ltb (.finite 0) x = false := by
  cases x with
  | finite q =>
    simp only [JSNum.leb, decide_eq_true_eq] at h
    simp only [JSNum.ltb, decide_eq_false_iff_not]
    linarith
  | nan => simp [JSNum.leb] at h

/-!
### Invariants of the min/max scan of `secStats`
-/

theorem secScan_min (l : List ProcessedPlantData) :
    ∀ ab : ProcessedPlantData × ProcessedPlantData,
      (∀ x ∈ l, ∃ q : ℚ, x.sec = .finite q) → (∃ q : ℚ, ab.1.sec = .finite q) →
      ((l.foldl secScanStep ab).1 = ab.1 ∨ (l.foldl secScanStep ab).1 ∈ l)
        ∧ (∃ q : ℚ, (l.foldl secScanStep ab).1.sec = .finite q)
        ∧ (l.foldl secScanStep ab).1.sec.toQ ≤ ab.1.sec.toQ
        ∧ ∀ x ∈ l, (l.foldl secScanStep ab).1.sec.toQ ≤ x.sec.toQ := by
  induction l with
  | nil =>
    intro ab _ ha
    exact ⟨Or.inl rfl, ha, le_rfl, by simp⟩
  | cons x t ih =>
    intro ab hall ha
    obtain ⟨qa, hqa⟩ := ha
    obtain ⟨qx, hqx⟩ := hall x (List.mem_cons_self x t)
    have hfst : (secScanStep ab x).1 = if JSNum.ltb x.sec ab.1.sec then x else ab.1 := rfl
    have hstep : ((secScanStep ab x).1 = x ∨ (secScanStep ab x).1 = ab.1)
        ∧ (∃ q : ℚ, (secScanStep ab x).1.sec = .finite q)
        ∧ (secScanStep ab x).1.sec.toQ ≤ ab.1.sec.toQ
        ∧ (secScanStep ab x).1.sec.toQ ≤ x.sec.toQ := by
      by_cases hlt : JSNum.ltb x.sec ab.1.sec = true
      · have hq : qx < qa := by
          rw [hqx, hqa] at hlt
          exact ltb_finite_iff.mp hlt
        rw [hfst, if_pos hlt]
        exact ⟨Or.inl rfl, ⟨qx, hqx⟩, by rw [hqx, hqa]; simp [JSNum.toQ]; linarith, le_rfl⟩
      · have hq : qa ≤ qx := by
          rw [hqx, hqa] at hlt
          have := (not_iff_not.mpr (@ltb_finite_iff qx qa)).mp hlt
          linarith [not_lt.mp this]
        rw [hfst, if_neg hlt]
        exact ⟨Or.inr rfl, ⟨qa, hqa⟩, le_rfl, by rw [hqx, hqa]; simp [JSNum.toQ]; linarith⟩
    have IH := ih (secScanStep ab x) (fun y hy => hall y (List.mem_cons_of_mem _ hy)) hstep.2.1
    rw [List.foldl_cons]
    refine ⟨?_, IH.2.1, ?_, ?_⟩
    · rcases IH.1 with h | h
      · rcases hstep.1 with h1 | h1
        · exact Or.inr (by rw [h, h1]; exact List.mem_cons_self x t)
        · exact Or.inl (h.trans h1)
      · exact Or.inr (List.mem_cons_of_mem x h)
    · exact le_trans IH.2.2.1 hstep.2.2.1
    · intro y hy
      rcases List.mem_cons.mp hy with rfl | hy
      · exact le_trans IH.2.2.1 hstep.2.2.2
      · exact IH.2.2.2 y hy

theorem secScan_max (l : List ProcessedPlantData) :
    ∀ ab : ProcessedPlantData × ProcessedPlantData,
      (∀ x ∈ l, ∃ q : ℚ, x.sec = .finite q) → (∃ q : ℚ, ab.2.sec = .finite q) →
      ((l.foldl secScanStep ab).2 = ab.2 ∨ (l.foldl secScanStep ab).2 ∈ l)
        ∧ (∃ q : ℚ, (l.foldl secScanStep ab).2.sec = .finite q)
        ∧ ab.2.sec.toQ ≤ (l.foldl secScanStep ab).2.sec.toQ
        ∧ ∀ x ∈ l, x.sec.toQ ≤ (l.foldl secScanStep ab).2.sec.toQ := by
  induction l with
  | nil =>
    intro ab _ ha
    exact ⟨Or.inl rfl, ha, le_rfl, by simp⟩
  | cons x t ih =>
    intro ab hall ha
    obtain ⟨qa, hqa⟩ := ha
    obtain ⟨qx, hqx⟩ := hall x (List.mem_cons_self x t)
    have hsnd : (secScanStep ab x).2 = if JSNum.ltb ab.2.sec x.sec then x else ab.2 := rfl
    have hstep : ((secScanStep ab x).2 = x ∨ (secScanStep ab x).2 = ab.2)
        ∧ (∃ q : ℚ, (secScanStep ab x).2.sec = .finite q)
        ∧ ab.2.sec.toQ ≤ (secScanStep ab x).2.sec.toQ
        ∧ x.sec.toQ ≤ (secScanStep ab x).2.sec.toQ := by
      by_cases hlt : JSNum.ltb ab.2.sec x.sec = true
      · have hq : qa < qx := by
          rw [hqx, hqa] at hlt
          exact ltb_finite_iff.mp hlt
        rw [hsnd, if_pos hlt]
        exact ⟨Or.inl rfl, ⟨qx, hqx⟩, by rw [hqx, hqa]; simp [JSNum.toQ]; linarith, le_rfl⟩
      · have hq : qx ≤ qa := by
          rw [hqx, hqa] at hlt
          have := (not_iff_not.mpr (@ltb_finite_iff qa qx)).mp hlt
          linarith [not_lt.mp this]
        rw [hsnd, if_neg hlt]
        exact ⟨Or.inr rfl, ⟨qa, hqa⟩, le_rfl, by rw [hqx, hqa]; simp [JSNum.toQ]; linarith⟩
    have IH := ih (secScanStep ab x) (fun y hy => hall y (List.mem_cons_of_mem _ hy)) hstep.2.1
    rw [List.foldl_cons]
    refine ⟨?_, IH.2.1, ?_, ?_⟩
    · rcases IH.1 with h | h
      · rcases hstep.1 with h1 | h1
        · exact Or.inr (by rw [h, h1]; exact List.mem_cons_self x t)
        · exact Or.inl (h.trans h1)
      · exact Or.inr (List.mem_cons_of_mem x h)
    · exact le_trans hstep.2.2.1 IH.2.2.1
    · intro y hy
      rcases List.mem_cons.mp hy with rfl | hy
      · exact le_trans hstep.2.2.2 IH.2.2.1
      · exact IH.2.2.2 y hy

/-!
### KPI projection lemmas
-/

theorem processPlantData_sec (raw : RawPlantData) :
    (processPlantData raw).sec =
      if JSNum.ltb (.finite 0) (processPlantData raw).totalEnergyProducedMMBTU then
        (processPlantData raw).energyFromGasMMBTU.div
          (processPlantData raw).totalEnergyProducedMMBTU
      else .finite 0 := rfl

theorem processPlantData_eii (raw : RawPlantData) :
    (processPlantData raw).eii =
      if JSNum.ltb (.finite 0) (processPlantData raw).expectedEnergyMMBTU then
        ((processPlantData raw).totalEnergyExpendedMMBTU.div
          (processPlantData raw).expectedEnergyMMBTU).mul (.finite 100)
      else .finite 0 := rfl

theorem processPlantData_emissionIntensity (raw : RawPlantData) :
    (processPlantData raw).emissionIntensity =
      if JSNum.ltb (.finite 0) (processPlantData raw).gasProduced then
        (processPlantData raw).ghgTotal.div (processPlantData raw).gasProduced
      else .finite 0 := rfl

/-- The all-zero raw row, used as a concrete witness input. -/
def zeroCell : JSValue := .num (.finite 0)

/-- A raw row with every numeric cell zero. -/
def rawZero : RawPlantData :=
  { plantName := some "A", date := some "01-Oct-25"
    gasFlaredSCM := zeroCell
    gasConsBoilerSCM := zeroCell, gasConsFurnaceSCM := zeroCell, gasConsGDUSCM := zeroCell
    gasConsEngineSCM := zeroCell, gasConsCompressorSCM := zeroCell
    elecConsGCSkWh := zeroCell, elecConsETPkWh := zeroCell, elecConsRefinerykWh := zeroCell
    elecGeneratedkWh := zeroCell, elecImportedkWh := zeroCell
    waterConsGCSm3 := zeroCell, waterConsRefinerym3 := zeroCell
    hsdConsPumpsKL := zeroCell, hsdConsGensetsKL := zeroCell
    hsdIssuedFireKL := zeroCell, hsdIssuedPSAKL := zeroCell, hsdIssuedOthersKL := zeroCell
    gasProductionSCM := zeroCell, oilProductionBarrels := zeroCell
    expectedEnergyConsMMBTU := zeroCell }

/-- The worked end-to-end example row of the specification: boiler gas 100,
HSD pumps 10, imported electricity 500, gas production 200, expected energy
50, everything else zero. -/
def rawExample : RawPlantData :=
  { rawZero with
    gasConsBoilerSCM := .num (.finite 100)
    hsdConsPumpsKL := .num (.finite 10)
    elecImportedkWh := .num (.finite 500)
    gasProductionSCM := .num (.finite 200)
    expectedEnergyConsMMBTU := .num (.finite 50) }

/-- C1: for every raw record, the processed record satisfies the exact sum
invariants — gasTotalInternal is the sum of the five gas sub-components,
elecTotalConsumed the sum of the three electricity sub-components,
waterTotal the sum of the two water sub-components, hsdTotalConsumed the sum
of the two HSD consumers, hsdTotalIssued the sum of the three HSD issue
lines — and the placeholder record from getBlankPlantData satisfies the same
five invariants. -/
theorem c1_sum_invariants :
    (∀ raw : RawPlantData,
      (processPlantData raw).gasTotalInternal
          = (((((processPlantData raw).gasBoiler.add (processPlantData raw).gasFurnace).add
              (processPlantData raw).gasGDU).add (processPlantData raw).gasEngine).add
              (processPlantData raw).gasCompressor)
        ∧ (processPlantData raw).elecTotalConsumed
          = (((processPlantData raw).elecGCS.add (processPlantData raw).elecETP).add
              (processPlantData raw).elecRefinery)
        ∧ (processPlantData raw).waterTotal
          = (processPlantData raw).waterGCS.add (processPlantData raw).waterRefinery
        ∧ (processPlantData raw).hsdTotalConsumed
          = (processPlantData raw).hsdPumps.add (processPlantData raw).hsdGensets
        ∧ (processPlantData raw).hsdTotalIssued
          = (((processPlantData raw).hsdIssuedFire.add (processPlantData raw).hsdIssuedPSA).add
              (processPlantData raw).hsdIssuedOthers))
    ∧ (getBlankPlantData.gasTotalInternal
          = ((((getBlankPlantData.gasBoiler.add getBlankPlantData.gasFurnace).add
              getBlankPlantData.gasGDU).add getBlankPlantData.gasEngine).add
              getBlankPlantData.gasCompressor)
        ∧ getBlankPlantData.elecTotalConsumed
          = ((getBlankPlantData.elecGCS.add getBlankPlantData.elecETP).add
              getBlankPlantData.elecRefinery)
        ∧ getBlankPlantData.waterTotal
          = getBlankPlantData.waterGCS.add getBlankPlantData.waterRefinery
        ∧ getBlankPlantData.hsdTotalConsumed
          = getBlankPlantData.hsdPumps.add getBlankPlantData.hsdGensets
        ∧ getBlankPlantData.hsdTotalIssued
          = ((getBlankPlantData.hsdIssuedFire.add getBlankPlantData.hsdIssuedPSA).add
              getBlankPlantData.hsdIssuedOthers)) := by
  constructor
  · intro raw
    exact ⟨rfl, rfl, rfl, rfl, rfl⟩
  · refine ⟨?_, ?_, ?_, ?_, ?_⟩ <;> simp [getBlankPlantData, JSNum.add]

/-- C2: every KPI of a processed record guards its denominator — whenever
the relevant denominator (totalEnergyProducedMMBTU for sec,
expectedEnergyMMBTU for eii, gasProduced for emissionIntensity) compares
less-or-equal to zero, the KPI is exactly 0.  `processPlantData` is a total
function of the model, so no error is raised and, the model having no
infinite value producible here, the KPIs are never infinite. -/
theorem c2_kpi_denominator_guards : ∀ raw : RawPlantData,
    (JSNum.leb (processPlantData raw).totalEnergyProducedMMBTU (.finite 0) = true →
      (processPlantData raw).sec = .finite 0)
    ∧ (JSNum.leb (processPlantData raw).expectedEnergyMMBTU (.finite 0) = true →
      (processPlantData raw).eii = .finite 0)
    ∧ (JSNum.leb (processPlantData raw).gasProduced (.finite 0) = true →
      (processPlantData raw).emissionIntensity = .finite 0) := by
  intro raw
  refine ⟨fun h => ?_, fun h => ?_, fun h => ?_⟩
  · simp [processPlantData_sec, ltb_false_of_leb h]
  · simp [processPlantData_eii, ltb_false_of_leb h]
  · simp [processPlantData_emissionIntensity, ltb_false_of_leb h]

/-- Witness for C2 at the all-zero row: every denominator is zero and all
three KPIs evaluate to 0. -/
theorem c2_kpi_denominator_guards_witness :
    (processPlantData rawZero).sec = .finite 0
    ∧ (processPlantData rawZero).eii = .finite 0
    ∧ (processPlantData rawZero).emissionIntensity = .finite 0 :=
  ⟨(c2_kpi_denominator_guards rawZero).1 (by
      simp [processPlantData, rawZero, zeroCell, safeFloat, JSNum.mul, JSNum.add, JSNum.leb]),
   (c2_kpi_denominator_guards rawZero).2.1 (by
      simp [processPlantData, rawZero, zeroCell, safeFloat, JSNum.leb]),
   (c2_kpi_denominator_guards rawZero).2.2 (by
      simp [processPlantData, rawZero, zeroCell, safeFloat, JSNum.leb])⟩

/-- C3: energyFromGasMMBTU is gasTotalInternal · SCM_TO_MMBTU,
totalEnergyProducedMMBTU is gasProduced · SCM_TO_MMBTU plus
oilProduced · BARREL_TO_MMBTU_OIL, and whenever the latter is strictly
positive, sec is the gas-only numerator energyFromGasMMBTU divided by
totalEnergyProducedMMBTU (not total energy expended). -/
theorem c3_sec_gas_only_formula : ∀ raw : RawPlantData,
    (processPlantData raw).energyFromGasMMBTU
        = (processPlantData raw).gasTotalInternal.mul (.finite CONVERSIONS.SCM_TO_MMBTU)
    ∧ (processPlantData raw).totalEnergyProducedMMBTU
        = ((processPlantData raw).gasProduced.mul (.finite CONVERSIONS.SCM_TO_MMBTU)).add
            ((processPlantData raw).oilProduced.mul (.finite CONVERSIONS.BARREL_TO_MMBTU_OIL))
    ∧ (JSNum.ltb (.finite 0) (processPlantData raw).totalEnergyProducedMMBTU = true →
        (processPlantData raw).sec
          = (processPlantData raw).energyFromGasMMBTU.div
              (processPlantData raw).totalEnergyProducedMMBTU) := by
  intro raw
  refine ⟨rfl, rfl, fun h => ?_⟩
  simp [processPlantData_sec, h]

/-- Witness for C3 at the specification's worked example row (gas production
200 SCM, so the produced energy 7.92 MMBTU is strictly positive). -/
theorem c3_sec_gas_only_formula_witness :
    (processPlantData rawExample).sec
      = (processPlantData rawExample).energyFromGasMMBTU.div
          (processPlantData rawExample).totalEnergyProducedMMBTU :=
  (c3_sec_gas_only_formula rawExample).2.2 (by
    simp [processPlantData, rawExample, rawZero, zeroCell, safeFloat, JSNum.mul, JSNum.add,
      JSNum.ltb, CONVERSIONS.SCM_TO_MMBTU, CONVERSIONS.BARREL_TO_MMBTU_OIL]
    norm_num)

/-- C4: `safeFloat` coerces a blank string, non-numeric text and `null` to
exactly 0 — but a value that is already a JS number is returned unchanged by
the `typeof` fast path, so the NaN number passes through as NaN, contrary to
the claim (and to the function's own comment) that the result is never NaN. -/
theorem c4_safeFloat_nan_passthrough :
    safeFloat (JSValue.str "") = .finite 0
    ∧ safeFloat (JSValue.str "abc") = .finite 0
    ∧ safeFloat JSValue.nullv = .finite 0
    ∧ safeFloat (JSValue.num JSNum.nan) = JSNum.nan := by
  refine ⟨?_, ?_, ?_, rfl⟩ <;> decide

/-- Counterexample for C5: after uploading a file whose content fails to
parse (the spreadsheet reader throws, `readDataFile` resolves `[]`), the
dataset is the empty list, not the nonempty previously active dataset. -/
theorem c5_counterexample :
    handleFileUpload [getBlankPlantData] (.loaded none) = []
    ∧ ([getBlankPlantData] : List ProcessedPlantData) ≠ [] :=
  ⟨rfl, by simp⟩

/-- C5 as amended: only a failure of the file reader itself leaves the
previously active dataset in place; unparseable content resolves to the
empty row list and commits the empty dataset, replacing the previous one
wholesale.  No partial dataset is ever committed: the committed dataset is
always exactly the processed image of the full parse result. -/
theorem c5_amended_atomicity :
    (∀ prev : List ProcessedPlantData, handleFileUpload prev .readError = prev)
    ∧ (∀ prev : List ProcessedPlantData, handleFileUpload prev (.loaded none) = [])
    ∧ (∀ prev : List ProcessedPlantData, handleFileUpload prev .emptyResult = [])
    ∧ (∀ (prev : List ProcessedPlantData) (rows : List RawPlantData),
        handleFileUpload prev (.loaded (some rows)) = rows.map processPlantData) :=
  ⟨fun _ => rfl, fun _ => rfl, fun _ => rfl, fun _ _ => rfl⟩

/-!
### Claims about the date sort key
-/

/-- A valid calendar date of the 2000s in canonical-form components: day
`d` (1-based), month index `m` (0-based), 2-digit year `y`. -/
def ValidDMY (d m y : ℕ) : Prop :=
  1 ≤ d ∧ d ≤ daysInMonth (2000 + (y : ℤ)) m ∧ m < 12 ∧ y < 100

instance decValidDMY (d m y : ℕ) : Decidable (ValidDMY d m y) := by
  unfold ValidDMY
  infer_instance

/-- True calendar order on (year, month, day) triples. -/
def calBefore (y1 m1 d1 y2 m2 d2 : ℕ) : Prop :=
  y1 < y2 ∨ (y1 = y2 ∧ (m1 < m2 ∨ (m1 = m2 ∧ d1 < d2)))

instance decCalBefore (y1 m1 d1 y2 m2 d2 : ℕ) : Decidable (calBefore y1 m1 d1 y2 m2 d2) := by
  unfold calBefore
  infer_instance

theorem daysInMonth_le (y : ℤ) (m : ℕ) : daysInMonth y m ≤ 31 := by
  rcases m with _|_|_|_|_|_|_|_|_|_|_|_|m
  all_goals simp [daysInMonth, List.getD]
  split <;> omega

/-- C6: the sort key `parseDateString` is strictly monotonic over canonical
`DD-Mon-YY` strings (2-digit year read as 2000s) with respect to true
calendar order, across same-year and different-year pairs; and the
unique-date view `availableDates` is always sorted ascending by this key, so
on canonical dates it is chronologically ascending. -/
theorem c6_dateKey_monotone :
    (∀ d1 m1 y1 d2 m2 y2 : ℕ, ValidDMY d1 m1 y1 → ValidDMY d2 m2 y2 →
      calBefore y1 m1 d1 y2 m2 d2 →
      (parseDateString (canonicalDate d1 m1 y1)).getD 0
        < (parseDateString (canonicalDate d2 m2 y2)).getD 0)
    ∧ ∀ data : List ProcessedPlantData,
        (availableDates data).Pairwise (fun a b => dateKey a ≤ dateKey b) := by
  constructor
  · intro d1 m1 y1 d2 m2 y2 v1 v2 hcal
    obtain ⟨h1a, h1b, h1m, h1y⟩ := v1
    obtain ⟨h2a, h2b, h2m, h2y⟩ := v2
    have hd1 : d1 < 100 := by
      have := daysInMonth_le (2000 + (y1 : ℤ)) m1
      omega
    have hd2 : d2 < 100 := by
      have := daysInMonth_le (2000 + (y2 : ℤ)) m2
      omega
    rw [parseDateString_canonical hd1 h1m h1y, parseDateString_canonical hd2 h2m h2y,
      Option.getD_some, Option.getD_some]
    have e1 : (2000 : ℤ) + (y1 : ℤ) = 1970 + ((30 + y1 : ℕ) : ℤ) := by push_cast; ring
    have e2 : (2000 : ℤ) + (y2 : ℤ) = 1970 + ((30 + y2 : ℕ) : ℤ) := by push_cast; ring
    rw [e1, e2]
    refine jsDateUTCms_mono h1m h2m h1a ?_ h2a ?_
    · rw [← e1]
      exact h1b
    · unfold calBefore at hcal
      omega
  · intro data
    have htrans : ∀ a b c : String, decide (dateKey a ≤ dateKey b) = true →
        decide (dateKey b ≤ dateKey c) = true → decide (dateKey a ≤ dateKey c) = true := by
      intro a b c hab hbc
      simp only [decide_eq_true_eq] at hab hbc ⊢
      omega
    have htotal : ∀ a b : String,
        decide (dateKey a ≤ dateKey b) || decide (dateKey b ≤ dateKey a) := by
      intro a b
      simp only [Bool.or_eq_true, decide_eq_true_eq]
      omega
    have hs := List.sorted_mergeSort htrans htotal
      (uniqueFirst (data.map (fun d => d.date)))
    exact hs.imp (fun h => of_decide_eq_true h)

/-- Witness for C6 at the specification's example chain
01-Oct-25 < 05-Oct-25 < 01-Nov-25 < 01-Oct-26. -/
theorem c6_dateKey_monotone_witness :
    (parseDateString "01-Oct-25").getD 0 < (parseDateString "05-Oct-25").getD 0
    ∧ (parseDateString "05-Oct-25").getD 0 < (parseDateString "01-Nov-25").getD 0
    ∧ (parseDateString "01-Nov-25").getD 0 < (parseDateString "01-Oct-26").getD 0 := by
  have e1 : canonicalDate 1 9 25 = "01-Oct-25" := by decide
  have e2 : canonicalDate 5 9 25 = "05-Oct-25" := by decide
  have e3 : canonicalDate 1 10 25 = "01-Nov-25" := by decide
  have e4 : canonicalDate 1 9 26 = "01-Oct-26" := by decide
  refine ⟨?_, ?_, ?_⟩
  · have h := c6_dateKey_monotone.1 1 9 25 5 9 25 (by decide) (by decide) (by decide)
    rwa [e1, e2] at h
  · have h := c6_dateKey_monotone.1 5 9 25 1 10 25 (by decide) (by decide) (by decide)
    rwa [e2, e3] at h
  · have h := c6_dateKey_monotone.1 1 10 25 1 9 26 (by decide) (by decide) (by decide)
    rwa [e3, e4] at h

/-- C7: a string that does not split on `-` into exactly 3 segments gets the
fixed sentinel key 0 (no error is raised — the function is total), and every
well-formed canonical date has a strictly positive key, so malformed dates
sort before every well-formed one. -/
theorem c7_malformed_sentinel :
    (∀ s : String, (splitCh '-' s.data).length ≠ 3 → parseDateString s = some 0)
    ∧ ∀ d m y : ℕ, ValidDMY d m y → 0 < (parseDateString (canonicalDate d m y)).getD 0 := by
  constructor
  · intro s hs
    unfold parseDateString parseDateL
    split
    · rename_i heq
      have : (splitCh '-' s.data).length = 3 := by rw [heq]; rfl
      exact absurd this hs
    · rfl
  · intro d m y hv
    obtain ⟨h1, h2, hm, hy⟩ := hv
    have hd100 : d < 100 := by
      have := daysInMonth_le (2000 + (y : ℤ)) m
      omega
    rw [parseDateString_canonical hd100 hm hy, Option.getD_some]
    have e1 : (2000 : ℤ) + (y : ℤ) = 1970 + ((30 + y : ℕ) : ℤ) := by push_cast; ring
    rw [e1]
    unfold jsDateUTCms
    rw [yearStartDays_1970_add]
    have hspan := le_yearSpanDays 1970 (30 + y)
    have hpos : (0 : ℤ) < (yearSpanDays 1970 (30 + y) : ℤ)
        + (daysBeforeMonth (1970 + ((30 + y : ℕ) : ℤ)) (m : ℕ) : ℤ) + (d : ℤ) - 1 := by
      omega
    exact mul_pos hpos (by norm_num)

/-- Witness for C7: a slash-separated date gets the sentinel key 0, while
the well-formed 01-Oct-25 has a strictly positive key. -/
theorem c7_malformed_sentinel_witness :
    parseDateString "2025/10/01" = some 0
    ∧ 0 < (parseDateString (canonicalDate 1 9 25)).getD 0 :=
  ⟨c7_malformed_sentinel.1 "2025/10/01" (by decide),
   c7_malformed_sentinel.2 1 9 25 (by decide)⟩

/-- Counterexample for C10: the middle segment `toString` is not one of the
twelve month abbreviations, yet the key of `01-toString-25` is NaN
(`none`) — the property access finds the inherited `Object.prototype`
method, which passes the `!== undefined` test and makes `Date.UTC` yield
NaN — and in particular is not the January-2025 timestamp the claim
asserts. -/
theorem c10_counterexample_prototype :
    parseDateString "01-toString-25" = none
    ∧ parseDateString "01-toString-25" ≠ some (jsDateUTCms (2000 + 25) 0 1) := by
  constructor
  · decide
  · decide

/-- C10 as amended: a 3-segment string whose middle segment is not a
recognized month abbreviation never gets the sentinel key 0.  When the
segment is also not the name of a property inherited from
`Object.prototype`, the lookup misses, the month falls back to 0 (January),
and the key is the UTC timestamp built from the parsed day and 2000-based
year with month January (NaN — `none` — when the day or year segment fails
to parse).  When the segment names an inherited property (`toString`,
`constructor`, `valueOf`, …), the inherited value is taken as the month and
the key is NaN. -/
theorem c10_unknown_month_amended :
    ∀ (s : String) (p0 p1 p2 : List Char), splitCh '-' s.data = [p0, p1, p2] →
      monthNames.findIdx? (fun nm => nm == p1) = none →
      parseDateString s ≠ some 0
      ∧ (p1 ∉ objectProtoProps →
          parseDateString s =
            (match parseIntJS p0, parseIntJS p2 with
             | some day, some yearPart => some (jsDateUTCms (2000 + yearPart) 0 day)
             | _, _ => none))
      ∧ (p1 ∈ objectProtoProps → parseDateString s = none) := by
  intro s p0 p1 p2 hsplit hmonth
  have hparse : parseDateString s =
      (match parseIntJS p0, parseIntJS p2, monthValue p1 with
       | some day, some yearPart, some month => some (jsDateUTCms (2000 + yearPart) month day)
       | _, _, _ => none) := parseDateL_three hsplit
  have hmv : monthValue p1 = if p1 ∈ objectProtoProps then none else some 0 := by
    unfold monthValue
    rw [hmonth]
  by_cases hproto : p1 ∈ objectProtoProps
  · have hres : parseDateString s = none := by
      rw [hparse, hmv, if_pos hproto]
      rcases parseIntJS p0 with _ | day <;> rcases parseIntJS p2 with _ | yp <;> rfl
    exact ⟨by rw [hres]; simp, fun hn => absurd hproto hn, fun _ => hres⟩
  · have hres : parseDateString s =
        (match parseIntJS p0, parseIntJS p2 with
         | some day, some yearPart => some (jsDateUTCms (2000 + yearPart) 0 day)
         | _, _ => none) := by
      rw [hparse, hmv, if_neg hproto]
      rcases parseIntJS p0 with _ | day <;> rcases parseIntJS p2 with _ | yp <;> rfl
    refine ⟨?_, fun _ => hres, fun hp => absurd hp hproto⟩
    rw [hres]
    have hsplit2 : (splitChAux '-' s.data).1 :: (splitChAux '-' s.data).2 = [p0, p1, p2] := hsplit
    obtain ⟨h1, h2⟩ := List.cons.inj hsplit2
    have hp0 : '-' ∉ p0 := h1 ▸ splitChAux_fst_not_mem '-' s.data
    have hp2 : '-' ∉ p2 := splitChAux_snd_not_mem '-' s.data p2 (by rw [h2]; simp)
    rcases hd : parseIntJS p0 with _ | day
    · simp
    rcases hy2 : parseIntJS p2 with _ | yp
    · simp
    have hday : 0 ≤ day := parseIntJS_nonneg hp0 hd
    have hyp : 0 ≤ yp := parseIntJS_nonneg hp2 hy2
    simp only []
    intro hcontra
    have heq0 := Option.some.inj hcontra
    unfold jsDateUTCms at heq0
    have e : (2000 : ℤ) + yp = 1970 + (((30 + yp).toNat : ℕ) : ℤ) := by omega
    rw [e, yearStartDays_1970_add] at heq0
    have hspan := le_yearSpanDays 1970 (30 + yp).toNat
    have h30 : (30 : ℕ) ≤ (30 + yp).toNat := by omega
    have hdb : daysBeforeMonth (1970 + (((30 + yp).toNat : ℕ) : ℤ)) 0 = 0 := rfl
    rw [hdb] at heq0
    omega

/-- Witness for the amended C10: `01-Foo-25` (unknown month, not an
inherited property name) does not sink to the sentinel, while
`01-toString-25` (inherited property name) keys as NaN. -/
theorem c10_unknown_month_amended_witness :
    parseDateString "01-Foo-25" ≠ some 0
    ∧ parseDateString "01-toString-25" = none :=
  ⟨(c10_unknown_month_amended "01-Foo-25" "01".data "Foo".data "25".data
      (by decide) (by decide)).1,
   (c10_unknown_month_amended "01-toString-25" "01".data "toString".data "25".data
      (by decide) (by decide)).2.2 (by decide)⟩

/-!
### Claim about the SEC min/max statistic
-/

/-- C9: with a (nonempty) selected date, `secStats` restricts to the records
whose date equals the selected date and whose sec is strictly positive;
it returns `none` exactly when no record qualifies (never fabricated
zero-valued records), and otherwise the returned pair consists of qualifying
records attaining the minimum and the maximum sec among them. -/
theorem c9_secStats_min_max :
    ∀ (data : List ProcessedPlantData) (sel : String), sel ≠ "" →
      (data.filter (fun d => JSNum.ltb (.finite 0) d.sec && d.date == sel) = []
          ↔ secStats data sel = none)
      ∧ ∀ mn mx : ProcessedPlantData, secStats data sel = some (mn, mx) →
          mn ∈ data.filter (fun d => JSNum.ltb (.finite 0) d.sec && d.date == sel)
          ∧ mx ∈ data.filter (fun d => JSNum.ltb (.finite 0) d.sec && d.date == sel)
          ∧ ∀ r ∈ data.filter (fun d => JSNum.ltb (.finite 0) d.sec && d.date == sel),
              mn.sec.toQ ≤ r.sec.toQ ∧ r.sec.toQ ≤ mx.sec.toQ := by
  intro data sel hsel
  have hss : secStats data sel =
      (match data.filter (fun d => JSNum.ltb (.finite 0) d.sec && d.date == sel) with
       | [] => none
       | h :: t => some ((h :: t).foldl secScanStep (h, h))) := by
    unfold secStats
    rw [if_neg hsel]
  constructor
  · constructor
    · intro h
      rw [hss, h]
    · intro h
      rcases hfil : data.filter (fun d => JSNum.ltb (.finite 0) d.sec && d.date == sel)
        with _ | ⟨hd, tl⟩
      · exact hfil
      · rw [hss, hfil] at h
        exact absurd h (by simp)
  · intro mn mx hmm
    rcases hfil : data.filter (fun d => JSNum.ltb (.finite 0) d.sec && d.date == sel)
      with _ | ⟨hd, tl⟩
    · rw [hss, hfil] at hmm
      exact absurd hmm (by simp)
    · rw [hss, hfil] at hmm
      have hmm2 := Option.some.inj hmm
      have hallfin : ∀ x ∈ hd :: tl, ∃ q : ℚ, x.sec = .finite q := by
        intro x hx
        have hxmem : x ∈ data.filter (fun d => JSNum.ltb (.finite 0) d.sec && d.date == sel) := by
          rw [hfil]
          exact hx
        have hp := List.of_mem_filter hxmem
        have hpos : JSNum.ltb (.finite 0) x.sec = true := by
          have := (Bool.and_eq_true _ _).mp hp
          exact this.1
        obtain ⟨q, hq, _⟩ := ltb_pos_finite hpos
        exact ⟨q, hq⟩
      have hfirst := hallfin hd (List.mem_cons_self hd tl)
      have hminlem := secScan_min (hd :: tl) (hd, hd) hallfin hfirst
      have hmaxlem := secScan_max (hd :: tl) (hd, hd) hallfin hfirst
      rw [hmm2] at hminlem hmaxlem
      refine ⟨?_, ?_, ?_⟩
      · rw [hfil]
        rcases hminlem.1 with h | h
        · rw [show (mn, mx).1 = mn from rfl] at h
          rw [h]
          exact List.mem_cons_self hd tl
        · exact h
      · rw [hfil]
        rcases hmaxlem.1 with h | h
        · rw [show (mn, mx).2 = mx from rfl] at h
          rw [h]
          exact List.mem_cons_self hd tl
        · exact h
      · intro r hr
        rw [hfil] at hr
        exact ⟨hminlem.2.2.2 r hr, hmaxlem.2.2.2 r hr⟩

/-- A concrete processed record used as a witness input: date 01-Oct-25 and
a strictly positive sec. -/
def wRec : ProcessedPlantData := { getBlankPlantData with date := "01-Oct-25", sec := .finite 1 }

/-- Witness for C9: on a one-record dataset with positive sec on the
selected date, the record qualifies and is returned. -/
theorem c9_secStats_min_max_witness :
    wRec ∈ List.filter (fun d => JSNum.ltb (.finite 0) d.sec && d.date == "01-Oct-25") [wRec] :=
  (((c9_secStats_min_max [wRec] "01-Oct-25" (by decide)).2 wRec wRec (by decide))).1

/-!
### Claim about the serial-date branch of `readDataFile`
-/

/-- C8: a numeric Date cell is converted only when the serial strictly
exceeds 30000 (any smaller or equal value is left unconverted; any larger
one is converted to a string), and for the serial of a valid calendar day
(serial = 25569 + days since the epoch) the conversion — round((serial −
25569)·86400·1000) plus 12 hours, then field extraction — produces exactly
the canonical string: zero-padded 2-digit day, 3-letter month, last two
digits of the year. -/
theorem c8_serial_threshold_and_conversion :
    (∀ q : ℚ, q ≤ 30000 → normalizeDateCell (.numv q) = .numv q)
    ∧ (∀ q : ℚ, 30000 < q → ∃ s : String, normalizeDateCell (.numv q) = .strv s)
    ∧ ∀ k m d : ℕ, 30 ≤ k → m < 12 → 1 ≤ d → d ≤ daysInMonth (1970 + (k : ℤ)) m →
        normalizeDateCell (.numv (25569 +
            ((yearSpanDays 1970 k + (daysBeforeMonth (1970 + (k : ℤ)) m + (d - 1)) : ℕ) : ℚ)))
          = .strv (canonicalDate d m ((1970 + k) % 100)) := by
  refine ⟨?_, ?_, ?_⟩
  · intro q hq
    simp only [normalizeDateCell]
    rw [if_neg (by linarith)]
  · intro q hq
    simp only [normalizeDateCell]
    rw [if_pos hq]
    exact ⟨_, rfl⟩
  · intro k m d hk hm hd1 hd2
    have hnge : 365 * k ≤ yearSpanDays 1970 k := le_yearSpanDays 1970 k
    have hqgt : (30000 : ℚ) < 25569 +
        ((yearSpanDays 1970 k + (daysBeforeMonth (1970 + (k : ℤ)) m + (d - 1)) : ℕ) : ℚ) := by
      have hn : (10950 : ℕ) ≤
          yearSpanDays 1970 k + (daysBeforeMonth (1970 + (k : ℤ)) m + (d - 1)) := by
        omega
      have : (10950 : ℚ) ≤
          ((yearSpanDays 1970 k + (daysBeforeMonth (1970 + (k : ℤ)) m + (d - 1)) : ℕ) : ℚ) := by
        exact_mod_cast hn
      linarith
    simp only [normalizeDateCell]
    rw [if_pos hqgt]
    have hr : jsRound ((25569 +
        ((yearSpanDays 1970 k + (daysBeforeMonth (1970 + (k : ℤ)) m + (d - 1)) : ℕ) : ℚ)
          - 25569) * 86400000)
        = ((yearSpanDays 1970 k + (daysBeforeMonth (1970 + (k : ℤ)) m + (d - 1)) : ℕ) : ℤ)
            * 86400000 := by
      rw [show (25569 +
          ((yearSpanDays 1970 k + (daysBeforeMonth (1970 + (k : ℤ)) m + (d - 1)) : ℕ) : ℚ)
            - 25569) * 86400000
          = ((((yearSpanDays 1970 k + (daysBeforeMonth (1970 + (k : ℤ)) m + (d - 1)) : ℕ) : ℤ)
              * 86400000 : ℤ) : ℚ) from by push_cast; ring]
      exact jsRound_intCast _
    rw [hr]
    unfold civilFromMs
    rw [fdiv_day_noon, civilFromDays_valid k m d hm hd1 hd2]
    unfold formatDMY
    rw [show ((((1970 + (k : ℤ)) % 100).toNat) = (1970 + k) % 100) from by omega]

/-- Witness for C8: serial 45901 converts to `01-Sep-25`, while the boundary
serial 30000 is left unconverted. -/
theorem c8_serial_threshold_and_conversion_witness :
    normalizeDateCell (.numv 45901) = .strv "01-Sep-25"
    ∧ normalizeDateCell (.numv 30000) = .numv 30000 := by
  constructor
  · have h := c8_serial_threshold_and_conversion.2.2 55 8 1 (by omega) (by omega)
      (by omega) (by decide)
    have e1 : yearSpanDays 1970 55 + (daysBeforeMonth (1970 + ((55 : ℕ) : ℤ)) 8 + (1 - 1))
        = 20332 := by decide
    rw [e1] at h
    have e2 : canonicalDate 1 8 ((1970 + 55) % 100) = "01-Sep-25" := by decide
    rw [e2] at h
    have e3 : (25569 : ℚ) + ((20332 : ℕ) : ℚ) = 45901 := by norm_num
    rw [e3] at h
    exact h
  · exact c8_serial_threshold_and_conversion.1 30000 (by norm_num)
